import Mathlib

/-!
Verification of the meter-usage service (`server.py`) against its design
specification.

Modelling conventions (shallow embedding):

* A Python `datetime` is modelled by `PyDatetime`: the naive wall-clock
  reading, measured in whole seconds since 0001-01-01T00:00:00 (the proleptic
  Gregorian calendar used by Python's `datetime`), together with the optional
  fixed UTC offset (`tzinfo`) in seconds.  Sub-second resolution is not
  modelled; none of the verified properties depends on microseconds.
* Python float arithmetic is idealised as exact real arithmetic (`ℝ`);
  `math.cos`, `math.exp`, `math.sin` become `Real.cos`, `Real.exp`,
  `Real.sin`; the float modulo `%` on a positive divisor becomes `rmod`
  (floored remainder); built-in `round(x, 2)` becomes `pyRound2`
  (round-half-to-even on the exact real, Python's documented tie rule).
* Code that raises becomes `Option`/`Except`: `int()` on a non-numeric
  string is `none`; the HTTP handler returns `Except ApiError _`, where
  `ApiError.internalError` stands for an exception that escapes the handler
  (surfaced by the transport layer as a 500, not a 400/404).
* `datetime.fromisoformat` is Python library code outside this repository;
  the handler is therefore modelled as receiving the *outcome* of the two
  parse calls (`Option PyDatetime`), `none` standing for `ValueError`.
  Comparison of two datetimes mixing naive and aware raises `TypeError` in
  Python; the embedding makes that explicit (`internalError` branch).
-/

/-! ## Calendar arithmetic (proleptic Gregorian, as Python's datetime) -/

/-- Days since 0001-01-01 of a civil date (standard era-based algorithm). -/
def daysFromCivil (y m d : Nat) : Nat :=
  let y' := if m ≤ 2 then y - 1 else y
  let era := y' / 400
  let yoe := y' % 400
  let mp := (m + 9) % 12
  let doy := (153 * mp + 2) / 5 + d - 1
  let doe := yoe * 365 + yoe / 4 - yoe / 100 + doy
  era * 146097 + doe - 306

/-- Civil date (year, month, day) from days since 0001-01-01. -/
def civilFromDays (days : Nat) : Nat × Nat × Nat :=
  let z := days + 306
  let era := z / 146097
  let doe := z % 146097
  let yoe := (doe - doe / 1460 + doe / 36524 - doe / 146096) / 365
  let y := yoe + era * 400
  let doy := doe - (365 * yoe + yoe / 4 - yoe / 100)
  let mp := (5 * doy + 2) / 153
  let d := doy - (153 * mp + 2) / 5 + 1
  if mp < 10 then (y, mp + 3, d) else (y + 1, mp - 9, d)

/-- A decimal digit as a character. -/
def digitChar (d : Nat) : Char := Char.ofNat (48 + d)

/-- Zero-padded 2-digit decimal rendering (for values below 100). -/
def pad2 (n : Nat) : String := String.mk [digitChar (n / 10 % 10), digitChar (n % 10)]

/-- Zero-padded 4-digit decimal rendering (for values below 10000). -/
def pad4 (n : Nat) : String :=
  String.mk [digitChar (n / 1000 % 10), digitChar (n / 100 % 10),
             digitChar (n / 10 % 10), digitChar (n % 10)]

/-- Zero-padded 6-digit decimal rendering: Python's `f"{n:06d}"` for
`n < 10^6` (every value the code formats is below `10^6`). -/
def pad6 (n : Nat) : String :=
  String.mk [digitChar (n / 100000 % 10), digitChar (n / 10000 % 10),
             digitChar (n / 1000 % 10), digitChar (n / 100 % 10),
             digitChar (n / 10 % 10), digitChar (n % 10)]

/-! ## Python datetimes -/

/-- A Python `datetime` at whole-second resolution: `wall` is the naive
wall-clock reading in seconds since 0001-01-01T00:00:00 (what `.year`,
`.hour`, `.minute`, ... display), `tz` the fixed UTC offset of its `tzinfo`
in seconds (`none` for a naive datetime). -/
structure PyDatetime where
  wall : Nat
  tz : Option Int
deriving DecidableEq, Repr

/-- `dt.hour`. -/
def dtHour (d : PyDatetime) : Nat := d.wall / 3600 % 24

/-- `dt.minute`. -/
def dtMinute (d : PyDatetime) : Nat := d.wall / 60 % 60

/-- `dt.second`. -/
def dtSecond (d : PyDatetime) : Nat := d.wall % 60

/-- The absolute instant used by Python to compare / subtract two aware
datetimes (`wall − utcoffset`); for two naive datetimes Python compares the
walls, which is the same as comparing `key` since both offsets default to 0.
Python refuses to compare a naive with an aware datetime (`TypeError`);
`key` is only ever used on pairs of equal awareness. -/
def key (d : PyDatetime) : Int := (d.wall : Int) - d.tz.getD 0

/-- Build a datetime from civil wall-clock fields plus optional UTC offset. -/
def mkDt (y mo da h mi s : Nat) (tz : Option Int) : PyDatetime :=
  ⟨daysFromCivil y mo da * 86400 + h * 3600 + mi * 60 + s, tz⟩

/-- `current.strftime("%Y-%m-%dT%H:%M:%SZ")`: renders the *wall-clock*
fields of the datetime (whatever its offset) and appends a literal "Z". -/
def strftimeZ (d : PyDatetime) : String :=
  match civilFromDays (d.wall / 86400) with
  | (y, mo, da) =>
    pad4 y ++ "-" ++ pad2 mo ++ "-" ++ pad2 da ++ "T" ++
    pad2 (dtHour d) ++ ":" ++ pad2 (dtMinute d) ++ ":" ++ pad2 (dtSecond d) ++ "Z"

/-! ## Meter catalog (`METERS`, `VALID_METER_IDS`) -/

/-- `class Meter(BaseModel)`. -/
structure Meter where
  meter_id : String
deriving DecidableEq, Repr

/-- The identifier `f"1020{100000 + i:06d}"`. -/
def meterIdOfIndex (i : Nat) : String := "1020" ++ pad6 (100000 + i)

/-- `METERS = [{"meter_id": f"1020{100000 + i:06d}"} for i in range(1000)]`. -/
def METERS : List Meter := (List.range 1000).map (fun i => ⟨meterIdOfIndex i⟩)

/-- `VALID_METER_IDS = {m["meter_id"] for m in METERS}` — the Python set is
modelled by the list of its elements; only membership is ever used. -/
def VALID_METER_IDS : List String := METERS.map (·.meter_id)

/-- `GET /meters` returns `METERS` (the `asyncio.sleep` is transport delay
with no effect on the value). -/
def get_meters : List Meter := METERS

/-! ## Waveform generator (`get_usage_value_for_time`) -/

/-- Python's float modulo for a positive divisor: `x - y * floor (x / y)`,
the representative in `[0, y)`. -/
noncomputable def rmod (x y : ℝ) : ℝ := x - y * ⌊x / y⌋

/-- Python 3 `round` to an integer: round-half-to-even (banker's rounding),
idealised on exact reals. -/
noncomputable def roundHalfEven (x : ℝ) : ℤ :=
  if Int.fract x < 1 / 2 then ⌊x⌋
  else if 1 / 2 < Int.fract x then ⌊x⌋ + 1
  else if 2 ∣ ⌊x⌋ then ⌊x⌋ else ⌊x⌋ + 1

/-- `round(x, 2)`. -/
noncomputable def pyRound2 (x : ℝ) : ℝ := (roundHalfEven (x * 100) : ℝ) / 100

/-- `int(s)` for the strings this program feeds it: a non-empty all-digit
string parses to its decimal value, anything else raises (`none`). -/
def intOfString (s : String) : Option Nat :=
  if s.data = [] ∨ ¬ s.data.all (fun c => 48 ≤ c.toNat ∧ c.toNat ≤ 57) then none
  else some (s.data.foldl (fun acc c => acc * 10 + (c.toNat - 48)) 0)

/-- `meter_id[-6:]`: the last six characters (the whole string if shorter). -/
def strLast6 (s : String) : String := ⟨s.data.drop (s.data.length - 6)⟩

/-- Lines 49–83 of `get_usage_value_for_time`: the usage value before the
final clamp-and-round, as a function of the timestamp and the parsed
`meter_num`. -/
noncomputable def usagePre (dt : PyDatetime) (meter_num : Nat) : ℝ :=
  let magnitude_bucket := meter_num % 10
  let time_shift_bucket := meter_num / 10 % 10
  let pattern_bucket := meter_num / 100 % 10
  let hour : ℝ := (dtHour dt : ℝ) + (dtMinute dt : ℝ) / 60
  let hour_shifted := rmod (hour - time_shift_bucket + 4) 24
  let base_load : ℝ := 3 + (magnitude_bucket : ℝ) * 1
  let magnitude : ℝ := 0.5 + (magnitude_bucket : ℝ) / 9
  let daily_phase := (hour_shifted - 14) * (2 * Real.pi / 24)
  let daily_variation := -Real.cos daily_phase
  let morning_weight := (10 - (pattern_bucket : ℝ)) / 10
  let evening_weight := (pattern_bucket : ℝ) / 10
  let morning_spike := Real.exp (-((hour_shifted - 7.5) ^ 2) / 2) * 5 * morning_weight
  let evening_spike := Real.exp (-((hour_shifted - 19) ^ 2) / 2) * 6 * evening_weight
  let usage := base_load + ((daily_variation + 1) * 8 + morning_spike + evening_spike) * magnitude
  usage + Real.sin ((dtMinute dt : ℝ) * 0.1 + (meter_num : ℝ) * 0.1) * 0.5

/-- Line 86: `return round(max(0.0, usage), 2)`. -/
noncomputable def usageFromNum (dt : PyDatetime) (meter_num : Nat) : ℝ :=
  pyRound2 (max 0 (usagePre dt meter_num))

/-- `get_usage_value_for_time(dt, meter_id)`: parses `int(meter_id[-6:])`
(raising — `none` — on a non-numeric suffix) and evaluates the waveform. -/
noncomputable def get_usage_value_for_time (dt : PyDatetime) (meter_id : String) : Option ℝ :=
  (intOfString (strLast6 meter_id)).map (usageFromNum dt)

/-! ## The `/meter-usage` handler -/

/-- Outcomes of `get_meter_usage` other than success: 404, 400, and an
exception escaping the handler (Python `TypeError` when comparing a naive
with an aware datetime), which the transport surfaces as a 500. -/
inductive ApiError where
  | notFound
  | invalidArgument
  | internalError
deriving DecidableEq, Repr

/-- The instants visited by the `while current < end_dt` loop, stepping
`current += timedelta(minutes=1)` (which adds to the wall clock and keeps
`tzinfo`).  Only reached with `cur`, `fin` of equal awareness, where `<`
on datetimes is `key` comparison. -/
def seriesTimes (cur fin : PyDatetime) : List PyDatetime :=
  if key cur < key fin then cur :: seriesTimes ⟨cur.wall + 60, cur.tz⟩ fin else []
termination_by (key fin - key cur).toNat
decreasing_by
  simp only [key] at *
  omega

/-- `class UsageReading(BaseModel)`. -/
structure UsageReading where
  timestamp : String
  value : ℝ

/-- Lines 139–151: one reading per visited instant, stamped with
`strftime("%Y-%m-%dT%H:%M:%SZ")`.  For a catalog meter the waveform call
never raises (`usage_some_of_valid` below); `.getD 0` is never exercised. -/
noncomputable def series (meter_id : String) (cur fin : PyDatetime) : List UsageReading :=
  (seriesTimes cur fin).map
    (fun t => ⟨strftimeZ t, (get_usage_value_for_time t meter_id).getD 0⟩)

/-- `GET /meter-usage` (lines 103–151).  `start_res`/`end_res` are the
outcomes of the two `datetime.fromisoformat(..., "Z"→"+00:00")` calls
(`none` = `ValueError`).  Checks run in source order: meter membership,
parseability, `start_dt >= end_dt` (Python raises `TypeError` if exactly
one of the two is naive — `internalError`), then
`int((end_dt - start_dt).total_seconds() / 60) > 1440`. -/
noncomputable def get_meter_usage (meter_id : String)
    (start_res end_res : Option PyDatetime) : Except ApiError (List UsageReading) :=
  if meter_id ∈ VALID_METER_IDS then
    match start_res, end_res with
    | some start_dt, some end_dt =>
      if start_dt.tz.isSome = end_dt.tz.isSome then
        if key end_dt ≤ key start_dt then .error .invalidArgument
        else if 1440 < (key end_dt - key start_dt).toNat / 60 then .error .invalidArgument
        else .ok (series meter_id start_dt end_dt)
      else .error .internalError
    | _, _ => .error .invalidArgument
  else .error .notFound

/-! ## Helper lemmas: real-arithmetic facts -/

theorem abs_cos_sub_cos_le (a b : ℝ) : |Real.cos a - Real.cos b| ≤ |a - b| := by
  rw [Real.cos_sub_cos]
  rw [abs_mul, abs_mul]
  have h0 : |(-2 : ℝ)| = 2 := by norm_num
  rw [h0]
  calc 2 * |Real.sin ((a+b)/2)| * |Real.sin ((a-b)/2)| ≤ 2 * 1 * |(a-b)/2| := by
        apply mul_le_mul _ Real.abs_sin_le_abs (abs_nonneg _) (by positivity)
        nlinarith [abs_nonneg (Real.sin ((a+b)/2)), Real.abs_sin_le_one ((a+b)/2)]
    _ = 2 * (|a - b| / 2) := by rw [abs_div]; norm_num
    _ = |a - b| := by ring

/-- The Gaussian kernel appearing in both spike terms. -/
noncomputable def gk (x : ℝ) : ℝ := Real.exp (-(x ^ 2) / 2)

theorem gk_hasDeriv (x : ℝ) : HasDerivAt gk (Real.exp (-(x^2)/2) * (-x)) x := by
  have h1 : HasDerivAt (fun x : ℝ => -(x ^ 2) / 2) (-x) x := by
    have := (hasDerivAt_pow 2 x).neg.div_const 2
    simpa using this.congr_deriv (by push_cast; ring)
  exact h1.exp

theorem gk_pos (x : ℝ) : 0 < gk x := Real.exp_pos _

theorem gk_le_one (x : ℝ) : gk x ≤ 1 := by
  unfold gk
  rw [show (1 : ℝ) = Real.exp 0 by rw [Real.exp_zero]]
  rw [Real.exp_le_exp]
  nlinarith [sq_nonneg x]

theorem gk_lipschitz (a b : ℝ) : |gk a - gk b| ≤ |a - b| := by
  have hd : ∀ x : ℝ, HasDerivAt gk (Real.exp (-(x^2)/2) * (-x)) x := gk_hasDeriv
  have hdiff : Differentiable ℝ gk := fun x => (hd x).differentiableAt
  have hder : ∀ x : ℝ, ‖deriv gk x‖₊ ≤ (1 : NNReal) := by
    intro x
    rw [← NNReal.coe_le_coe, coe_nnnorm, NNReal.coe_one]
    rw [(hd x).deriv, Real.norm_eq_abs, abs_mul, abs_neg]
    have hx : |Real.exp (-(x^2)/2)| = Real.exp (-(x^2)/2) := abs_of_pos (Real.exp_pos _)
    rw [hx]
    have h2 : Real.exp (-(x^2)/2) * |x| ≤ 1 := by
      have he : -(x^2)/2 = -(x^2/2) := by ring
      rw [he, Real.exp_neg]
      rw [inv_mul_le_iff₀ (Real.exp_pos _), mul_one]
      calc |x| ≤ 1 + x^2/2 := by nlinarith [sq_nonneg (|x| - 1), sq_abs x]
        _ = x^2/2 + 1 := by ring
        _ ≤ Real.exp (x^2/2) := Real.add_one_le_exp _
    linarith
  have h3 := (lipschitzWith_of_nnnorm_deriv_le hdiff hder).dist_le_mul a b
  rw [Real.dist_eq, Real.dist_eq] at h3
  simpa using h3

/-- Far from its center the Gaussian kernel is below `1/4096`. -/
theorem gk_tail (t : ℝ) (h : 24 ≤ t ^ 2) : gk t ≤ 1 / 4096 := by
  have h1 : Real.exp (-(t^2)/2) ≤ Real.exp (-12) := by
    rw [Real.exp_le_exp]; linarith
  have h2 : Real.exp (-12 : ℝ) = 1 / Real.exp 12 := by
    rw [Real.exp_neg, inv_eq_one_div]
  have h3 : (4096 : ℝ) ≤ Real.exp 12 := by
    have he : (2 : ℝ) ≤ Real.exp 1 := by
      have := Real.add_one_le_exp (1 : ℝ); linarith
    have h12 : Real.exp 12 = Real.exp 1 ^ (12 : ℕ) := by
      rw [← Real.exp_nat_mul]; norm_num
    rw [h12]
    calc (4096 : ℝ) = 2 ^ (12 : ℕ) := by norm_num
      _ ≤ Real.exp 1 ^ (12 : ℕ) := by
          apply pow_le_pow_left₀ (by norm_num) he
  rw [h2] at h1
  have h5 : 1 / Real.exp 12 ≤ 1 / 4096 :=
    div_le_div_of_nonneg_left (by norm_num) (by norm_num) h3
  unfold gk
  linarith

theorem rmod_nonneg (x : ℝ) : 0 ≤ rmod x 24 := by
  have h := Int.sub_floor_div_mul_nonneg x (by norm_num : (0:ℝ) < 24)
  simpa [rmod, mul_comm] using h

theorem rmod_lt (x : ℝ) : rmod x 24 < 24 := by
  have h := Int.sub_floor_div_mul_lt x (by norm_num : (0:ℝ) < 24)
  simpa [rmod, mul_comm] using h

theorem rmod_int_sub (x : ℝ) (k : ℤ) : rmod (x - 24 * k) 24 = rmod x 24 := by
  unfold rmod
  have h : (x - 24 * k) / 24 = x / 24 - k := by ring
  rw [h, Int.floor_sub_int]
  push_cast
  ring

theorem rmod_eq_self (x : ℝ) (h0 : 0 ≤ x) (h1 : x < 24) : rmod x 24 = x := by
  unfold rmod
  have h : ⌊x / 24⌋ = 0 := by
    apply Int.floor_eq_zero_iff.mpr
    constructor
    · positivity
    · rw [div_lt_one (by norm_num)]; linarith
  rw [h]; push_cast; ring

/-- Moving the `rmod` argument forward by less than a period either moves its
value by the same amount or wraps once. -/
theorem rmod_add_small (x δ : ℝ) (hδ0 : 0 ≤ δ) (hδ : δ < 24) :
    rmod (x + δ) 24 = rmod x 24 + δ ∨
    (24 ≤ rmod x 24 + δ ∧ rmod (x + δ) 24 = rmod x 24 + δ - 24) := by
  have hx0 := rmod_nonneg x
  have hx1 := rmod_lt x
  have hxe : rmod (x + δ) 24 = rmod (rmod x 24 + δ) 24 := by
    have h : rmod x 24 + δ = (x + δ) - 24 * ⌊x / 24⌋ := by unfold rmod; ring
    rw [h, rmod_int_sub]
  by_cases h : rmod x 24 + δ < 24
  · left; rw [hxe, rmod_eq_self _ (by linarith) h]
  · right
    refine ⟨by linarith, ?_⟩
    rw [hxe]
    rw [show rmod x 24 + δ - 24 = (rmod x 24 + δ) - 24 * ((1:ℤ):ℝ) by push_cast; ring] at *
    rw [← rmod_int_sub (rmod x 24 + δ) 1]
    rw [rmod_eq_self]
    · push_cast; linarith
    · push_cast; linarith

theorem roundHalfEven_sub_le (x : ℝ) : |(roundHalfEven x : ℝ) - x| ≤ 1 / 2 := by
  unfold roundHalfEven
  have hf0 := Int.fract_nonneg x
  have hf1 := Int.fract_lt_one x
  have hfx : (⌊x⌋ : ℝ) = x - Int.fract x := by rw [Int.self_sub_fract]
  split_ifs with h1 h2 h3
  all_goals rw [abs_le]; constructor <;> [skip; skip] <;> push_cast <;> rw [hfx] <;> linarith

theorem roundHalfEven_nonneg (x : ℝ) (hx : 0 ≤ x) : 0 ≤ roundHalfEven x := by
  unfold roundHalfEven
  have h0 : (0 : ℤ) ≤ ⌊x⌋ := Int.floor_nonneg.mpr hx
  split_ifs <;> omega

theorem pyRound2_nonneg (x : ℝ) (hx : 0 ≤ x) : 0 ≤ pyRound2 x := by
  unfold pyRound2
  have := roundHalfEven_nonneg (x * 100) (by positivity)
  positivity

theorem pyRound2_sub_le (x : ℝ) : |pyRound2 x - x| ≤ 1 / 200 := by
  unfold pyRound2
  have h := roundHalfEven_sub_le (x * 100)
  rw [show (roundHalfEven (x*100) : ℝ) / 100 - x = ((roundHalfEven (x*100) : ℝ) - x*100) / 100 by ring]
  rw [abs_div, show |(100:ℝ)| = 100 by norm_num]
  linarith

/-! ## Helper lemmas: catalog structure -/

theorem digitChar_toNat (d : Nat) (h : d < 10) : (digitChar d).toNat = 48 + d := by
  interval_cases d <;> decide

/-- Reading a digit string back as a number (the fold inside `intOfString`). -/
def decodeDigits (l : List Char) : Nat := l.foldl (fun a c => a * 10 + (c.toNat - 48)) 0

theorem pad6_decode (n : Nat) (h : n < 1000000) : decodeDigits (pad6 n).data = n := by
  have h5 : n / 100000 % 10 < 10 := Nat.mod_lt _ (by norm_num)
  have h4 : n / 10000 % 10 < 10 := Nat.mod_lt _ (by norm_num)
  have h3 : n / 1000 % 10 < 10 := Nat.mod_lt _ (by norm_num)
  have h2 : n / 100 % 10 < 10 := Nat.mod_lt _ (by norm_num)
  have h1 : n / 10 % 10 < 10 := Nat.mod_lt _ (by norm_num)
  have h0 : n % 10 < 10 := Nat.mod_lt _ (by norm_num)
  show List.foldl _ 0 [_, _, _, _, _, _] = n
  simp only [List.foldl_cons, List.foldl_nil]
  rw [digitChar_toNat _ h5, digitChar_toNat _ h4, digitChar_toNat _ h3,
      digitChar_toNat _ h2, digitChar_toNat _ h1, digitChar_toNat _ h0]
  omega

theorem meterIdOfIndex_inj (i j : Nat) (hi : i < 1000) (hj : j < 1000)
    (h : meterIdOfIndex i = meterIdOfIndex j) : i = j := by
  unfold meterIdOfIndex at h
  have hd : ("1020" ++ pad6 (100000 + i)).data = ("1020" ++ pad6 (100000 + j)).data := by rw [h]
  rw [String.data_append, String.data_append] at hd
  have hd2 : (pad6 (100000 + i)).data = (pad6 (100000 + j)).data :=
    List.append_cancel_left hd
  have hni := pad6_decode (100000 + i) (by omega)
  have hnj := pad6_decode (100000 + j) (by omega)
  rw [← hd2] at hnj
  omega

theorem valid_ids_eq : VALID_METER_IDS = (List.range 1000).map meterIdOfIndex := by
  unfold VALID_METER_IDS METERS
  rw [List.map_map]
  rfl

theorem strLast6_meterId (i : Nat) : strLast6 (meterIdOfIndex i) = pad6 (100000 + i) := by
  unfold strLast6 meterIdOfIndex
  apply String.ext
  rw [String.data_append]
  show (("1020".data ++ (pad6 (100000+i)).data).drop
        (("1020".data ++ (pad6 (100000+i)).data).length - 6)) = _
  have h4 : "1020".data = ['1', '0', '2', '0'] := rfl
  have h6 : (pad6 (100000 + i)).data = [_, _, _, _, _, _] := rfl
  rw [h4, h6]
  simp

theorem intOfString_pad6 (n : Nat) (h : n < 1000000) :
    intOfString (pad6 n) = some n := by
  have hd : ∀ d < 10, 48 ≤ (digitChar d).toNat ∧ (digitChar d).toNat ≤ 57 := by
    intro d hd; rw [digitChar_toNat d hd]; omega
  unfold intOfString
  rw [if_neg]
  · have hn := pad6_decode n h
    unfold decodeDigits at hn
    rw [hn]
  · push_neg
    constructor
    · show ¬ ([_,_,_,_,_,_] = ([] : List Char))
      simp
    · show List.all [_,_,_,_,_,_] _ = true
      simp only [List.all_cons, List.all_nil, Bool.and_true, Bool.and_eq_true, decide_eq_true_eq]
      refine ⟨?_, ?_, ?_, ?_, ?_, ?_⟩ <;> exact hd _ (Nat.mod_lt _ (by norm_num))

/-- Every catalog identifier is `meterIdOfIndex i` for a unique `i < 1000`,
and its 6-character numeric suffix parses to `100000 + i`; in particular the
waveform generator never raises on a catalog meter. -/
theorem valid_id_spec (mid : String) (h : mid ∈ VALID_METER_IDS) :
    ∃ i, i < 1000 ∧ mid = meterIdOfIndex i ∧
      intOfString (strLast6 mid) = some (100000 + i) := by
  rw [valid_ids_eq] at h
  obtain ⟨i, hi, rfl⟩ := List.mem_map.mp h
  refine ⟨i, List.mem_range.mp hi, rfl, ?_⟩
  rw [strLast6_meterId]
  exact intOfString_pad6 _ (by have := List.mem_range.mp hi; omega)

theorem usage_some_of_valid (dt : PyDatetime) (mid : String) (h : mid ∈ VALID_METER_IDS) :
    ∃ i, i < 1000 ∧ get_usage_value_for_time dt mid = some (usageFromNum dt (100000 + i)) := by
  obtain ⟨i, hi, _, hp⟩ := valid_id_spec mid h
  exact ⟨i, hi, by rw [get_usage_value_for_time, hp, Option.map_some']⟩

/-! ## Helper lemmas: waveform and series -/

theorem usagePre_only_hm (d1 d2 : PyDatetime) (n : Nat)
    (hh : dtHour d1 = dtHour d2) (hm : dtMinute d1 = dtMinute d2) :
    usagePre d1 n = usagePre d2 n := by
  unfold usagePre
  rw [hh, hm]

/-- The waveform value as a function of the bare (hour, minute) pair. -/
noncomputable def preHM (n h m : Nat) : ℝ := usagePre ⟨h * 3600 + m * 60, none⟩ n

theorem dtHour_mk (h m : Nat) (hh : h < 24) (hm : m < 60) :
    dtHour ⟨h * 3600 + m * 60, none⟩ = h := by
  show (h * 3600 + m * 60) / 3600 % 24 = h
  omega

theorem dtMinute_mk (h m : Nat) (hh : h < 24) (hm : m < 60) :
    dtMinute ⟨h * 3600 + m * 60, none⟩ = m := by
  show (h * 3600 + m * 60) / 60 % 60 = m
  omega

theorem usagePre_eq_preHM (dt : PyDatetime) (n : Nat)
    (hh : dtHour dt < 24) (hm : dtMinute dt < 60) :
    usagePre dt n = preHM n (dtHour dt) (dtMinute dt) := by
  unfold preHM
  apply usagePre_only_hm
  · rw [dtHour_mk _ _ hh hm]
  · rw [dtMinute_mk _ _ hh hm]

theorem seriesTimes_length (cur fin : PyDatetime) :
    (seriesTimes cur fin).length = ((key fin - key cur).toNat + 59) / 60 := by
  rw [seriesTimes]
  split
  · rw [List.length_cons, seriesTimes_length]
    simp only [key] at *
    omega
  · simp only [List.length_nil]
    simp only [key] at *
    omega
termination_by (key fin - key cur).toNat
decreasing_by
  simp only [key] at *
  omega

theorem seriesTimes_mem (cur fin t : PyDatetime) (h : t ∈ seriesTimes cur fin) :
    key t < key fin ∧ t.tz = cur.tz ∧ t.wall % 60 = cur.wall % 60 ∧ cur.wall ≤ t.wall := by
  rw [seriesTimes] at h
  split at h
  · rcases List.mem_cons.mp h with rfl | h2
    · exact ⟨by assumption, rfl, rfl, le_refl _⟩
    · have ih := seriesTimes_mem ⟨cur.wall + 60, cur.tz⟩ fin t h2
      refine ⟨ih.1, ih.2.1, ?_, ?_⟩ <;> [skip; skip] <;> have h3 := ih.2.2.1 <;>
        have h4 := ih.2.2.2 <;> simp only at * <;> omega
  · simp at h
termination_by (key fin - key cur).toNat
decreasing_by
  simp only [key] at *
  omega

/-! ## Helper lemmas: handler case analysis -/

theorem handler_ok_iff (mid : String) (sRes eRes : Option PyDatetime) (l : List UsageReading) :
    get_meter_usage mid sRes eRes = .ok l ↔
      mid ∈ VALID_METER_IDS ∧ ∃ s e, sRes = some s ∧ eRes = some e ∧
        s.tz.isSome = e.tz.isSome ∧ key s < key e ∧
        (key e - key s).toNat / 60 ≤ 1440 ∧ l = series mid s e := by
  unfold get_meter_usage
  split
  · rename_i hmem
    cases sRes with
    | none => simp
    | some s =>
      cases eRes with
      | none => simp
      | some e =>
        simp only []
        split
        · rename_i htz
          split
          · rename_i hle
            constructor
            · intro h; exact absurd h (by simp)
            · rintro ⟨-, s', e', hs, he, -, hlt, -, -⟩
              cases hs; cases he; omega
          · split
            · rename_i hcap
              constructor
              · intro h; exact absurd h (by simp)
              · rintro ⟨-, s', e', hs, he, -, -, hcap', -⟩
                cases hs; cases he; omega
            · rename_i hle hcap
              simp only [Except.ok.injEq]
              constructor
              · intro h; exact ⟨hmem, s, e, rfl, rfl, htz, by omega, by omega, h.symm⟩
              · rintro ⟨-, s', e', hs, he, -, -, -, rfl⟩
                cases hs; cases he; rfl
        · rename_i htz
          constructor
          · intro h; exact absurd h (by simp)
          · rintro ⟨-, s', e', hs, he, htz', -⟩
            cases hs; cases he; exact absurd htz' htz
  · rename_i hmem
    constructor
    · intro h; exact absurd h (by simp)
    · rintro ⟨hmem', -⟩; exact absurd hmem' hmem

theorem handler_notFound_iff (mid : String) (sRes eRes : Option PyDatetime) :
    get_meter_usage mid sRes eRes = .error .notFound ↔ mid ∉ VALID_METER_IDS := by
  unfold get_meter_usage
  split
  · rename_i hmem
    constructor
    · intro h
      exfalso
      cases sRes with
      | none => simp at h
      | some s =>
        cases eRes with
        | none => simp at h
        | some e =>
          simp only [] at h
          split at h <;> [skip; simp at h] <;> split at h <;>
            [simp at h; skip] <;> split at h <;> simp at h
    · intro h; exact absurd hmem h
  · rename_i hmem
    simpa using hmem

theorem handler_invalid_iff (mid : String) (sRes eRes : Option PyDatetime)
    (hmem : mid ∈ VALID_METER_IDS) :
    get_meter_usage mid sRes eRes = .error .invalidArgument ↔
      sRes = none ∨ eRes = none ∨ ∃ s e, sRes = some s ∧ eRes = some e ∧
        s.tz.isSome = e.tz.isSome ∧
        (key e ≤ key s ∨ 1440 < (key e - key s).toNat / 60) := by
  unfold get_meter_usage
  rw [if_pos hmem]
  cases sRes with
  | none => simp
  | some s =>
    cases eRes with
    | none => simp
    | some e =>
      simp only []
      split
      · rename_i htz
        split
        · rename_i hle
          exact iff_of_true rfl (Or.inr (Or.inr ⟨s, e, rfl, rfl, htz, Or.inl hle⟩))
        · split
          · rename_i hcap
            exact iff_of_true rfl (Or.inr (Or.inr ⟨s, e, rfl, rfl, htz, Or.inr hcap⟩))
          · rename_i hle hcap
            apply iff_of_false (by simp)
            rintro (h | h | ⟨s', e', hs, he, htz', hbad⟩)
            · exact Option.noConfusion h
            · exact Option.noConfusion h
            · injection hs with hs; injection he with he
              subst hs; subst he
              rcases hbad with hbad | hbad <;> omega
      · rename_i htz
        apply iff_of_false (by simp)
        rintro (h | h | ⟨s', e', hs, he, htz', hbad⟩)
        · exact Option.noConfusion h
        · exact Option.noConfusion h
        · injection hs with hs; injection he with he
          subst hs; subst he
          exact absurd htz' htz

theorem handler_internal (mid : String) (s e : PyDatetime)
    (hmem : mid ∈ VALID_METER_IDS) (htz : ¬ s.tz.isSome = e.tz.isSome) :
    get_meter_usage mid (some s) (some e) = .error .internalError := by
  unfold get_meter_usage
  rw [if_pos hmem]
  simp only []
  rw [if_neg htz]

/-! ## Further series helpers -/

theorem series_length (mid : String) (cur fin : PyDatetime) :
    (series mid cur fin).length = ((key fin - key cur).toNat + 59) / 60 := by
  unfold series
  rw [List.length_map, seriesTimes_length]

theorem series_reading_spec (mid : String) (a b : PyDatetime) (h : mid ∈ VALID_METER_IDS) :
    ∀ r ∈ series mid a b, ∃ t ∈ seriesTimes a b,
      r.timestamp = strftimeZ t ∧ 0 ≤ r.value ∧ ∃ k : ℤ, r.value = (k : ℝ) / 100 := by
  intro r hr
  unfold series at hr
  obtain ⟨t, ht, rfl⟩ := List.mem_map.mp hr
  obtain ⟨i, hi, he⟩ := usage_some_of_valid t mid h
  refine ⟨t, ht, rfl, ?_, ?_⟩
  · simp only [he, Option.getD_some]
    unfold usageFromNum
    exact pyRound2_nonneg _ (le_max_left _ _)
  · simp only [he, Option.getD_some]
    exact ⟨_, rfl⟩

/-! ## Claims -/

/-- C1: the Waveform Generator is a pure function of its arguments — in the
embedding it is a mathematical function, so repeated calls on a fixed
(timestamp, meter_id) coincide by definition; this theorem states the
stronger fact making purity informative: the value depends on nothing in the
timestamp beyond its hour and minute fields (no call order, no wall clock,
no hidden state: two arbitrary datetimes agreeing on hour and minute give
identical values for every meter id). -/
theorem c1_determinism (d1 d2 : PyDatetime) (mid : String)
    (hh : dtHour d1 = dtHour d2) (hm : dtMinute d1 = dtMinute d2) :
    get_usage_value_for_time d1 mid = get_usage_value_for_time d2 mid := by
  unfold get_usage_value_for_time usageFromNum
  congr 1
  funext n
  rw [usagePre_only_hm d1 d2 n hh hm]

theorem c1_witness :
    get_usage_value_for_time (mkDt 2025 1 1 10 30 0 (some 0)) "1020100000" =
    get_usage_value_for_time (mkDt 2030 7 15 10 30 45 none) "1020100000" :=
  c1_determinism _ _ _ (by decide) (by decide)

/-- C4: for every timestamp and every catalog meter the generator succeeds
(the numeric-suffix parse cannot fail on catalog ids) and returns a
non-negative value that is an integer multiple of 1/100 (rounded to two
decimal places): the sum is clamped at zero before rounding. -/
theorem c4_nonneg (dt : PyDatetime) (mid : String) (h : mid ∈ VALID_METER_IDS) :
    ∃ v, get_usage_value_for_time dt mid = some v ∧ 0 ≤ v ∧ ∃ k : ℤ, v = (k : ℝ) / 100 := by
  obtain ⟨i, hi, he⟩ := usage_some_of_valid dt mid h
  refine ⟨_, he, ?_, ⟨_, rfl⟩⟩
  unfold usageFromNum
  exact pyRound2_nonneg _ (le_max_left _ _)

set_option maxRecDepth 100000 in
theorem c4_witness :
    ∃ v, get_usage_value_for_time (mkDt 2025 1 1 0 0 0 (some 0)) "1020100000" = some v ∧
      0 ≤ v ∧ ∃ k : ℤ, v = (k : ℝ) / 100 :=
  c4_nonneg _ _ (by decide)

/-- C10: `GET /meters` is the constant catalog (same 1000 identifiers in the
same order on every call); the identifiers are exactly
`"1020" ++ f"{100000+i:06d}"` for the contiguous range `i = 0..999`; no two
collide; and the validator's membership universe (`VALID_METER_IDS`) is
exactly the set of those identifiers. -/
theorem c10_meter_catalog :
    get_meters = METERS ∧
    METERS.map (·.meter_id) = (List.range 1000).map meterIdOfIndex ∧
    (METERS.map (·.meter_id)).length = 1000 ∧
    (METERS.map (·.meter_id)).Nodup ∧
    VALID_METER_IDS = METERS.map (·.meter_id) := by
  refine ⟨rfl, valid_ids_eq, ?_, ?_, rfl⟩
  · simp [METERS]
  · show VALID_METER_IDS.Nodup
    rw [valid_ids_eq]
    apply List.Nodup.map_on _ (List.nodup_range 1000)
    intro i hi j hj h
    exact meterIdOfIndex_inj i j (List.mem_range.mp hi) (List.mem_range.mp hj) h

/-- C2: the count law — for minute-aligned bounds (of equal timezone
offset), a valid interval yields exactly `(t1 − t0) in minutes` readings —
together with the spec's example: meter "1020100000" over
[2025-01-01T00:00:00Z, 2025-01-01T00:03:00Z) gives exactly the readings
stamped 00:00:00Z, 00:01:00Z, 00:02:00Z, each non-negative and a multiple
of 1/100. -/
theorem c2_count_law :
    (∀ (mid : String) (t0 t1 : PyDatetime), mid ∈ VALID_METER_IDS →
      t0.tz = t1.tz → t0.wall % 60 = 0 → t1.wall % 60 = 0 →
      key t0 < key t1 → key t1 - key t0 ≤ 1440 * 60 →
      ((series mid t0 t1).length : ℤ) = (key t1 - key t0) / 60) ∧
    ((series "1020100000" (mkDt 2025 1 1 0 0 0 (some 0)) (mkDt 2025 1 1 0 3 0 (some 0))).map
        (fun r => r.timestamp) =
      ["2025-01-01T00:00:00Z", "2025-01-01T00:01:00Z", "2025-01-01T00:02:00Z"]) ∧
    (∀ r ∈ series "1020100000" (mkDt 2025 1 1 0 0 0 (some 0)) (mkDt 2025 1 1 0 3 0 (some 0)),
      0 ≤ r.value ∧ ∃ k : ℤ, r.value = (k : ℝ) / 100) := by
  refine ⟨?_, ?_, ?_⟩
  · intro mid t0 t1 _ htz h0 h1 hlt hcap
    rw [series_length]
    have hd : key t1 - key t0 = (t1.wall : ℤ) - (t0.wall : ℤ) := by
      simp only [key, htz]
      ring
    omega
  · rw [series]
    rw [seriesTimes, if_pos (by decide)]
    rw [seriesTimes, if_pos (by decide)]
    rw [seriesTimes, if_pos (by decide)]
    rw [seriesTimes, if_neg (by decide)]
    simp only [List.map_cons, List.map_nil, List.cons.injEq, and_true]
    exact ⟨by decide, by decide, by decide⟩
  · set_option maxRecDepth 100000 in
    have hm : "1020100000" ∈ VALID_METER_IDS := by decide
    intro r hr
    obtain ⟨t, -, -, hnn, hk⟩ := series_reading_spec _ _ _ hm r hr
    exact ⟨hnn, hk⟩

set_option maxRecDepth 100000 in
theorem c2_witness :
    ((series "1020100000" (mkDt 2025 1 1 0 0 0 (some 0))
        (mkDt 2025 1 1 0 3 0 (some 0))).length : ℤ) =
      (key (mkDt 2025 1 1 0 3 0 (some 0)) - key (mkDt 2025 1 1 0 0 0 (some 0))) / 60 ∧
    (key (mkDt 2025 1 1 0 3 0 (some 0)) - key (mkDt 2025 1 1 0 0 0 (some 0))) / 60 = 3 :=
  ⟨c2_count_law.1 "1020100000" _ _ (by decide) rfl (by decide) (by decide)
      (by decide) (by decide),
    by decide⟩

/-- C3: the interval is half-open — every reading of `series mid t0 t1` is
evaluated at an instant strictly before `t1` (`key`, the instant Python
compares, stays below `key t1`), so no reading is stamped at `t1` itself,
even when `t1` is minute-aligned. -/
theorem c3_half_open (mid : String) (t0 t1 : PyDatetime) :
    (∀ t ∈ seriesTimes t0 t1, key t < key t1 ∧ t ≠ t1) ∧
    (∀ r ∈ series mid t0 t1, ∃ t ∈ seriesTimes t0 t1, r.timestamp = strftimeZ t) := by
  constructor
  · intro t ht
    have h1 := (seriesTimes_mem t0 t1 t ht).1
    refine ⟨h1, fun he => ?_⟩
    rw [he] at h1
    exact lt_irrefl _ h1
  · intro r hr
    unfold series at hr
    obtain ⟨t, ht, rfl⟩ := List.mem_map.mp hr
    exact ⟨t, ht, rfl⟩

theorem c3_witness :
    key (mkDt 2025 1 1 0 0 0 (some 0)) < key (mkDt 2025 1 1 0 3 0 (some 0)) ∧
    mkDt 2025 1 1 0 0 0 (some 0) ≠ mkDt 2025 1 1 0 3 0 (some 0) :=
  (c3_half_open "1020100000" (mkDt 2025 1 1 0 0 0 (some 0)) (mkDt 2025 1 1 0 3 0 (some 0))).1
    _ (by rw [seriesTimes, if_pos (by decide)]; exact List.mem_cons_self _ _)

/-- Modelled from the spec: the "RFC3339/ISO-8601, UTC, seconds precision,
Z suffix" rendering of the *instant* denoted by a datetime — convert to
UTC offset zero (wall clock := instant) and render.  Used to compare the
code's rendering with the spec's required one. -/
def specUtcRender (d : PyDatetime) : String := strftimeZ ⟨(key d).toNat, some 0⟩

/-- C5 (amended): `GET /meter-usage` fails NotFound exactly on non-catalog
meters; for a catalog meter it fails InvalidArgument exactly when a
timestamp fails to parse, or the bounds are inverted/equal, or the span
measured in whole elapsed minutes exceeds 1440 — and otherwise succeeds
*provided the two parsed timestamps agree in timezone-awareness*; a pair
mixing a naive and an aware timestamp raises an uncaught `TypeError`
(internal error), not InvalidArgument (see the counterexample).  Includes
the boundary facts: a 1441-minute interval is rejected, a 1440-minute one
accepted.  Errors are returned before any reading is produced. -/
theorem c5_validation (mid : String) (sRes eRes : Option PyDatetime) :
    (get_meter_usage mid sRes eRes = .error .notFound ↔ mid ∉ VALID_METER_IDS) ∧
    (mid ∈ VALID_METER_IDS →
      (get_meter_usage mid sRes eRes = .error .invalidArgument ↔
        sRes = none ∨ eRes = none ∨ ∃ s e, sRes = some s ∧ eRes = some e ∧
          s.tz.isSome = e.tz.isSome ∧
          (key e ≤ key s ∨ 1440 < (key e - key s).toNat / 60))) ∧
    (∀ s e, mid ∈ VALID_METER_IDS → sRes = some s → eRes = some e →
      ¬ s.tz.isSome = e.tz.isSome →
      get_meter_usage mid sRes eRes = .error .internalError) ∧
    (∀ s e, mid ∈ VALID_METER_IDS → sRes = some s → eRes = some e →
      s.tz.isSome = e.tz.isSome → key s < key e → (key e - key s).toNat / 60 ≤ 1440 →
      get_meter_usage mid sRes eRes = .ok (series mid s e)) ∧
    (get_meter_usage "1020100000" (some (mkDt 2025 1 1 0 0 0 (some 0)))
        (some (mkDt 2025 1 2 0 1 0 (some 0))) = .error .invalidArgument) ∧
    (∃ l, get_meter_usage "1020100000" (some (mkDt 2025 1 1 0 0 0 (some 0)))
        (some (mkDt 2025 1 2 0 0 0 (some 0))) = .ok l) := by
  refine ⟨handler_notFound_iff mid sRes eRes,
    fun hmem => handler_invalid_iff mid sRes eRes hmem, ?_, ?_, ?_, ?_⟩
  · rintro s e hmem rfl rfl htz
    exact handler_internal mid s e hmem htz
  · rintro s e hmem rfl rfl htz hlt hcap
    exact (handler_ok_iff mid _ _ _).mpr ⟨hmem, s, e, rfl, rfl, htz, hlt, hcap, rfl⟩
  · set_option maxRecDepth 100000 in
    exact (handler_invalid_iff _ _ _ (by decide)).mpr
      (Or.inr (Or.inr ⟨_, _, rfl, rfl, by decide, Or.inr (by decide)⟩))
  · set_option maxRecDepth 100000 in
    exact ⟨_, (handler_ok_iff _ _ _ _).mpr
      ⟨by decide, _, _, rfl, rfl, by decide, by decide, by decide, rfl⟩⟩

set_option maxRecDepth 100000 in
theorem c5_witness :
    get_meter_usage "9999999999" none none = .error .notFound :=
  (c5_validation "9999999999" none none).1.mpr (by decide)

set_option maxRecDepth 100000 in
/-- C5 counterexample: both timestamps parse as ISO-8601 (start
"2025-01-01T00:00:00" is naive, end "2025-01-01T01:00:00Z" is aware), the
meter is in the catalog, yet the request ends in an uncaught `TypeError`
from `start_dt >= end_dt` (HTTP 500) — neither success nor InvalidArgument
nor NotFound, contradicting the claim's exhaustive trichotomy. -/
theorem c5_counterexample :
    get_meter_usage "1020100000" (some (mkDt 2025 1 1 0 0 0 none))
      (some (mkDt 2025 1 1 1 0 0 (some 0))) = .error .internalError ∧
    (∀ l, get_meter_usage "1020100000" (some (mkDt 2025 1 1 0 0 0 none))
      (some (mkDt 2025 1 1 1 0 0 (some 0))) ≠ .ok l) ∧
    get_meter_usage "1020100000" (some (mkDt 2025 1 1 0 0 0 none))
      (some (mkDt 2025 1 1 1 0 0 (some 0))) ≠ .error .invalidArgument ∧
    get_meter_usage "1020100000" (some (mkDt 2025 1 1 0 0 0 none))
      (some (mkDt 2025 1 1 1 0 0 (some 0))) ≠ .error .notFound := by
  have h := handler_internal "1020100000" (mkDt 2025 1 1 0 0 0 none)
    (mkDt 2025 1 1 1 0 0 (some 0)) (by decide) (by decide)
  refine ⟨h, ?_, ?_, ?_⟩ <;> simp [h]

/-- C6 (amended): a validated request yields at most **1441** readings (and
waveform evaluations) — not 1440: validation truncates the span to whole
minutes before comparing with 1440, so a span of 1440 minutes plus up to 59
seconds is accepted and materializes 1441 instants.  When the span is a
whole number of minutes (in particular for minute-aligned bounds) the count
is at most 1440. -/
theorem c6_eval_cap (mid : String) (sRes eRes : Option PyDatetime) (l : List UsageReading)
    (hok : get_meter_usage mid sRes eRes = .ok l) :
    l.length ≤ 1441 ∧
    (∀ s e, sRes = some s → eRes = some e → (key e - key s) % 60 = 0 →
      l.length ≤ 1440) := by
  obtain ⟨hmem, s, e, hs, he, htz, hlt, hcap, rfl⟩ := (handler_ok_iff mid sRes eRes l).mp hok
  rw [series_length]
  constructor
  · omega
  · rintro s' e' hs' he' hdvd
    rw [hs] at hs'
    rw [he] at he'
    injection hs' with h1
    injection he' with h2
    subst h1
    subst h2
    omega

set_option maxRecDepth 100000 in
/-- C6 counterexample: start 2025-01-01T00:00:00Z, end 2025-01-02T00:00:59Z
— a span of 1440 minutes 59 seconds — passes validation
(`int(86459/60) = 1440 ≤ 1440`) and produces 1441 readings, i.e. 1441
waveform evaluations, exceeding the claimed hard cap of 1440. -/
theorem c6_counterexample :
    ∃ l, get_meter_usage "1020100000" (some (mkDt 2025 1 1 0 0 0 (some 0)))
        (some (mkDt 2025 1 2 0 0 59 (some 0))) = .ok l ∧ l.length = 1441 := by
  refine ⟨_, (handler_ok_iff _ _ _ _).mpr
    ⟨by decide, _, _, rfl, rfl, by decide, by decide, by decide, rfl⟩, ?_⟩
  rw [series_length]
  decide

set_option maxRecDepth 100000 in
theorem c6_witness :
    (series "1020100000" (mkDt 2025 1 1 0 0 0 (some 0))
      (mkDt 2025 1 1 0 3 0 (some 0))).length ≤ 1441 :=
  (c6_eval_cap "1020100000" (some (mkDt 2025 1 1 0 0 0 (some 0)))
    (some (mkDt 2025 1 1 0 3 0 (some 0))) _
    ((handler_ok_iff _ _ _ _).mpr
      ⟨by decide, _, _, rfl, rfl, by decide, by decide, by decide, rfl⟩)).1

/-- C7 (amended): every returned timestamp is the rendering of the
*wall-clock fields* of the instant the reading was evaluated at, with a
literal "Z" appended regardless of the request's actual offset; this
coincides with the spec's UTC rendering exactly when the request timestamps
carry UTC offset zero (e.g. a "Z" suffix).  For a non-zero input offset the
"Z"-suffixed string is not the UTC rendering of the evaluated instant (see
the counterexample). -/
theorem c7_timestamps (mid : String) (sRes eRes : Option PyDatetime) (l : List UsageReading)
    (hok : get_meter_usage mid sRes eRes = .ok l) :
    ∃ s e, sRes = some s ∧ eRes = some e ∧
      ∀ r ∈ l, ∃ t ∈ seriesTimes s e, t.tz = s.tz ∧ r.timestamp = strftimeZ t ∧
        (t.tz = some 0 → r.timestamp = specUtcRender t) := by
  obtain ⟨hmem, s, e, hs, he, htz, hlt, hcap, rfl⟩ := (handler_ok_iff mid sRes eRes l).mp hok
  refine ⟨s, e, hs, he, ?_⟩
  intro r hr
  unfold series at hr
  obtain ⟨t, ht, rfl⟩ := List.mem_map.mp hr
  have htzt := (seriesTimes_mem s e t ht).2.1
  obtain ⟨w, tz⟩ := t
  refine ⟨⟨w, tz⟩, ht, htzt, rfl, ?_⟩
  intro h0
  simp only at h0
  subst h0
  unfold specUtcRender
  simp only [key, Option.getD_some, sub_zero, Int.toNat_natCast]

set_option maxRecDepth 100000 in
theorem c7_witness :
    ∃ s e, (some (mkDt 2025 1 1 0 0 0 (some 0))) = some s ∧
      (some (mkDt 2025 1 1 0 3 0 (some 0))) = some e ∧
      ∀ r ∈ series "1020100000" (mkDt 2025 1 1 0 0 0 (some 0))
          (mkDt 2025 1 1 0 3 0 (some 0)), ∃ t ∈ seriesTimes s e, t.tz = s.tz ∧
        r.timestamp = strftimeZ t ∧ (t.tz = some 0 → r.timestamp = specUtcRender t) :=
  c7_timestamps "1020100000" _ _ _ ((handler_ok_iff _ _ _ _).mpr
    ⟨by decide, _, _, rfl, rfl, by decide, by decide, by decide, rfl⟩)

set_option maxRecDepth 100000 in
/-- C7 counterexample: request bounds carry offset +05:00
(start 2025-01-01T05:00:00+05:00, i.e. instant 2025-01-01T00:00:00Z).  The
request succeeds, and its single reading — evaluated at that start instant
— is stamped "2025-01-01T05:00:00Z": the wall clock of the +05:00 datetime
with a false "Z" label, not the UTC rendering "2025-01-01T00:00:00Z" of the
evaluated instant required by the claim. -/
theorem c7_counterexample :
    ∃ l, get_meter_usage "1020100000" (some (mkDt 2025 1 1 5 0 0 (some 18000)))
        (some (mkDt 2025 1 1 5 1 0 (some 18000))) = .ok l ∧
      l.map (fun r => r.timestamp) = ["2025-01-01T05:00:00Z"] ∧
      seriesTimes (mkDt 2025 1 1 5 0 0 (some 18000)) (mkDt 2025 1 1 5 1 0 (some 18000)) =
        [mkDt 2025 1 1 5 0 0 (some 18000)] ∧
      specUtcRender (mkDt 2025 1 1 5 0 0 (some 18000)) = "2025-01-01T00:00:00Z" ∧
      ("2025-01-01T05:00:00Z" : String) ≠ "2025-01-01T00:00:00Z" := by
  have hst : seriesTimes (mkDt 2025 1 1 5 0 0 (some 18000))
      (mkDt 2025 1 1 5 1 0 (some 18000)) = [mkDt 2025 1 1 5 0 0 (some 18000)] := by
    rw [seriesTimes, if_pos (by decide), seriesTimes, if_neg (by decide)]
  refine ⟨_, (handler_ok_iff _ _ _ _).mpr
    ⟨by decide, _, _, rfl, rfl, by decide, by decide, by decide, rfl⟩, ?_, hst, by decide, by decide⟩
  rw [series, hst]
  simp only [List.map_cons, List.map_nil, List.cons.injEq, and_true]
  decide

/-- C8 (amended): every reading of a validated request is evaluated at an
instant whose seconds component equals the seconds component of
`start_time` — the code never truncates.  The claimed "seconds = 0" holds
exactly when the caller passes a minute-aligned `start_time`; a start with
a non-zero seconds component passes validation and yields readings with
that same non-zero seconds component (see the counterexample). -/
theorem c8_seconds (mid : String) (sRes eRes : Option PyDatetime) (l : List UsageReading)
    (hok : get_meter_usage mid sRes eRes = .ok l) :
    ∃ s e, sRes = some s ∧ eRes = some e ∧
      ∀ r ∈ l, ∃ t ∈ seriesTimes s e, r.timestamp = strftimeZ t ∧
        dtSecond t = dtSecond s ∧ (dtSecond s = 0 → dtSecond t = 0) := by
  obtain ⟨hmem, s, e, hs, he, htz, hlt, hcap, rfl⟩ := (handler_ok_iff mid sRes eRes l).mp hok
  refine ⟨s, e, hs, he, ?_⟩
  intro r hr
  unfold series at hr
  obtain ⟨t, ht, rfl⟩ := List.mem_map.mp hr
  have hsec := (seriesTimes_mem s e t ht).2.2.1
  exact ⟨t, ht, rfl, hsec, fun h0 => by rw [dtSecond, hsec, ← dtSecond, h0]⟩

set_option maxRecDepth 100000 in
theorem c8_witness :
    ∃ s e, (some (mkDt 2025 1 1 0 0 0 (some 0))) = some s ∧
      (some (mkDt 2025 1 1 0 3 0 (some 0))) = some e ∧
      ∀ r ∈ series "1020100000" (mkDt 2025 1 1 0 0 0 (some 0))
          (mkDt 2025 1 1 0 3 0 (some 0)), ∃ t ∈ seriesTimes s e,
        r.timestamp = strftimeZ t ∧ dtSecond t = dtSecond s ∧
        (dtSecond s = 0 → dtSecond t = 0) :=
  c8_seconds "1020100000" _ _ _ ((handler_ok_iff _ _ _ _).mpr
    ⟨by decide, _, _, rfl, rfl, by decide, by decide, by decide, rfl⟩)

set_option maxRecDepth 100000 in
/-- C8 counterexample: start 2025-01-01T00:00:30Z (seconds = 30) passes
validation; the single reading is evaluated at that instant and stamped
"2025-01-01T00:00:30Z" — its seconds component is 30, not 0. -/
theorem c8_counterexample :
    ∃ l, get_meter_usage "1020100000" (some (mkDt 2025 1 1 0 0 30 (some 0)))
        (some (mkDt 2025 1 1 0 1 30 (some 0))) = .ok l ∧
      l.map (fun r => r.timestamp) = ["2025-01-01T00:00:30Z"] ∧
      seriesTimes (mkDt 2025 1 1 0 0 30 (some 0)) (mkDt 2025 1 1 0 1 30 (some 0)) =
        [mkDt 2025 1 1 0 0 30 (some 0)] ∧
      dtSecond (mkDt 2025 1 1 0 0 30 (some 0)) = 30 := by
  have hst : seriesTimes (mkDt 2025 1 1 0 0 30 (some 0))
      (mkDt 2025 1 1 0 1 30 (some 0)) = [mkDt 2025 1 1 0 0 30 (some 0)] := by
    rw [seriesTimes, if_pos (by decide), seriesTimes, if_neg (by decide)]
  refine ⟨_, (handler_ok_iff _ _ _ _).mpr
    ⟨by decide, _, _, rfl, rfl, by decide, by decide, by decide, rfl⟩, ?_, hst, by decide⟩
  rw [series, hst]
  simp only [List.map_cons, List.map_nil, List.cons.injEq, and_true]
  decide

/-! ## Helper lemmas: day-boundary smoothness analysis -/

theorem dtHour_lt (d : PyDatetime) : dtHour d < 24 := Nat.mod_lt _ (by norm_num)

theorem dtMinute_lt (d : PyDatetime) : dtMinute d < 60 := Nat.mod_lt _ (by norm_num)

theorem pyRound2_diff (x y : ℝ) : |pyRound2 x - pyRound2 y| ≤ |x - y| + 1/100 := by
  have h1 := abs_le.mp (pyRound2_sub_le x)
  have h2 := abs_le.mp (pyRound2_sub_le y)
  have h3 := le_abs_self (x - y)
  have h4 := neg_abs_le (x - y)
  rw [abs_le]
  constructor <;> nlinarith

theorem max_zero_diff (a b : ℝ) : |max 0 a - max 0 b| ≤ |a - b| := by
  have h := abs_max_sub_max_le_abs a b 0
  rw [max_comm a 0, max_comm b 0] at h
  exact h

/-- The waveform value written out as an explicit function of the hour and
minute (for `h < 24`, `m < 60`). -/
theorem preHM_formula (n h m : ℕ) (hh : h < 24) (hm : m < 60) :
    preHM n h m =
      3 + ((n % 10 : ℕ) : ℝ) * 1 +
      ((-Real.cos ((rmod ((h : ℝ) + (m : ℝ) / 60 - ((n / 10 % 10 : ℕ) : ℝ) + 4) 24 - 14) *
          (2 * Real.pi / 24)) + 1) * 8 +
        gk (rmod ((h : ℝ) + (m : ℝ) / 60 - ((n / 10 % 10 : ℕ) : ℝ) + 4) 24 - 7.5) * 5 *
          ((10 - ((n / 100 % 10 : ℕ) : ℝ)) / 10) +
        gk (rmod ((h : ℝ) + (m : ℝ) / 60 - ((n / 10 % 10 : ℕ) : ℝ) + 4) 24 - 19) * 6 *
          (((n / 100 % 10 : ℕ) : ℝ) / 10)) *
        (0.5 + ((n % 10 : ℕ) : ℝ) / 9) +
      Real.sin ((m : ℝ) * 0.1 + (n : ℝ) * 0.1) * 0.5 := by
  unfold preHM usagePre gk
  rw [dtHour_mk h m hh hm, dtMinute_mk h m hh hm]

/-- One minute of phase moves the daily cosine by at most `π/720`, also
across a wrap of the shifted hour (the `% 24` is invisible to the cosine:
`2π`-periodicity). -/
theorem cos_step (r1 r2 : ℝ) (hcase : r2 = r1 + 1/60 ∨ r2 = r1 + 1/60 - 24) :
    |Real.cos ((r2 - 14) * (2 * Real.pi / 24)) -
      Real.cos ((r1 - 14) * (2 * Real.pi / 24))| ≤ Real.pi / 720 := by
  have hcos2 : Real.cos ((r2 - 14) * (2 * Real.pi / 24)) =
      Real.cos ((r1 + 1/60 - 14) * (2 * Real.pi / 24)) := by
    rcases hcase with rfl | rfl
    · rfl
    · have he : (r1 + 1/60 - 24 - 14) * (2 * Real.pi / 24) =
          (r1 + 1/60 - 14) * (2 * Real.pi / 24) - (1 : ℤ) * (2 * Real.pi) := by
        push_cast; ring
      rw [he, Real.cos_sub_int_mul_two_pi]
  rw [hcos2]
  have hb := abs_cos_sub_cos_le ((r1 + 1/60 - 14) * (2 * Real.pi / 24))
    ((r1 - 14) * (2 * Real.pi / 24))
  have harg : (r1 + 1/60 - 14) * (2 * Real.pi / 24) - (r1 - 14) * (2 * Real.pi / 24) =
      Real.pi / 720 := by ring
  rw [harg] at hb
  have habs : |Real.pi / 720| = Real.pi / 720 := abs_of_nonneg (by positivity)
  rw [habs] at hb
  exact hb

/-- One minute of shifted hour moves each Gaussian spike kernel by at most
`1/60`: directly by Lipschitz continuity in the no-wrap case; across a wrap
both kernel values sit in the far tails (the shifted hour is within a
minute of 24 on one side and of 0 on the other, both ≥ `√24` away from the
centers 7.5 and 19), so each is below `1/4096`. -/
theorem gauss_step (r1 r2 c : ℝ) (hc : c = 7.5 ∨ c = 19) (h0 : 0 ≤ r1) (h1 : r1 < 24)
    (hcase : r2 = r1 + 1/60 ∨ (24 ≤ r1 + 1/60 ∧ r2 = r1 + 1/60 - 24)) :
    |gk (r2 - c) - gk (r1 - c)| ≤ 1/60 := by
  rcases hcase with rfl | ⟨hge, rfl⟩
  · have hb := gk_lipschitz (r1 + 1/60 - c) (r1 - c)
    have he : |(r1 + 1/60 - c) - (r1 - c)| = 1/60 := by
      rw [show (r1 + 1/60 - c) - (r1 - c) = 1/60 by ring]
      norm_num
    rw [he] at hb
    exact hb
  · have hr1 : 24 - 1/60 ≤ r1 := by linarith
    have ht1 : 24 ≤ (r1 - c) ^ 2 := by
      rcases hc with rfl | rfl <;> nlinarith
    have ht2 : 24 ≤ (r1 + 1/60 - 24 - c) ^ 2 := by
      rcases hc with rfl | rfl <;> nlinarith
    have g1 := gk_tail _ ht1
    have g2 := gk_tail _ ht2
    have p1 := gk_pos (r1 - c)
    have p2 := gk_pos (r1 + 1/60 - 24 - c)
    rw [abs_le]
    constructor <;> nlinarith

/-- Triangle-inequality combination: with the per-term step bounds of
`cos_step`/`gauss_step` and the bucket ranges, one waveform step (before
clamping and rounding) moves the value by at most 139/100. -/
theorem combo_step (mb mw ew mag : ℝ) (c1 c2 g11 g12 g21 g22 sn1 sn2 : ℝ)
    (hmw0 : 0 ≤ mw) (hmw1 : mw ≤ 1) (hew0 : 0 ≤ ew) (hew1 : ew ≤ 9/10)
    (hmag0 : 0 ≤ mag) (hmag1 : mag ≤ 3/2)
    (hdv : |c2 - c1| ≤ Real.pi / 720)
    (hg1 : |g12 - g11| ≤ 1/60) (hg2 : |g22 - g21| ≤ 1/60)
    (hs1 : |sn1| ≤ 1) (hs2 : |sn2| ≤ 1) :
    |(3 + mb * 1 + ((-c2 + 1) * 8 + g12 * 5 * mw + g22 * 6 * ew) * mag + sn2 * 0.5) -
      (3 + mb * 1 + ((-c1 + 1) * 8 + g11 * 5 * mw + g21 * 6 * ew) * mag + sn1 * 0.5)| ≤
      139/100 := by
  have hkey : (3 + mb * 1 + ((-c2 + 1) * 8 + g12 * 5 * mw + g22 * 6 * ew) * mag + sn2 * 0.5) -
      (3 + mb * 1 + ((-c1 + 1) * 8 + g11 * 5 * mw + g21 * 6 * ew) * mag + sn1 * 0.5) =
      ((c1 - c2) * 8 + (g12 - g11) * (5 * mw) + (g22 - g21) * (6 * ew)) * mag +
        (sn2 - sn1) * 0.5 := by ring
  rw [hkey]
  have habs1 : |(c1 - c2) * 8| ≤ Real.pi / 720 * 8 := by
    rw [abs_mul, abs_of_nonneg (by norm_num : (0:ℝ) ≤ 8), abs_sub_comm]
    exact mul_le_mul_of_nonneg_right hdv (by norm_num)
  have habs2 : |(g12 - g11) * (5 * mw)| ≤ 1/60 * (5 * 1) := by
    rw [abs_mul, abs_of_nonneg (by positivity : (0:ℝ) ≤ 5 * mw)]
    exact mul_le_mul hg1 (by linarith) (by positivity) (by norm_num)
  have habs3 : |(g22 - g21) * (6 * ew)| ≤ 1/60 * (6 * (9/10)) := by
    rw [abs_mul, abs_of_nonneg (by positivity : (0:ℝ) ≤ 6 * ew)]
    exact mul_le_mul hg2 (by linarith) (by positivity) (by norm_num)
  have hX : |(c1 - c2) * 8 + (g12 - g11) * (5 * mw) + (g22 - g21) * (6 * ew)| ≤
      Real.pi / 720 * 8 + 1/60 * (5 * 1) + 1/60 * (6 * (9/10)) := by
    calc |(c1 - c2) * 8 + (g12 - g11) * (5 * mw) + (g22 - g21) * (6 * ew)| ≤
          |(c1 - c2) * 8 + (g12 - g11) * (5 * mw)| + |(g22 - g21) * (6 * ew)| := abs_add _ _
      _ ≤ |(c1 - c2) * 8| + |(g12 - g11) * (5 * mw)| + |(g22 - g21) * (6 * ew)| := by
          have := abs_add ((c1 - c2) * 8) ((g12 - g11) * (5 * mw))
          linarith
      _ ≤ _ := by linarith
  have hXmag : |((c1 - c2) * 8 + (g12 - g11) * (5 * mw) + (g22 - g21) * (6 * ew)) * mag| ≤
      (Real.pi / 720 * 8 + 1/60 * (5 * 1) + 1/60 * (6 * (9/10))) * (3/2) := by
    rw [abs_mul, abs_of_nonneg hmag0]
    exact mul_le_mul hX hmag1 hmag0 (by positivity)
  have hsn : |(sn2 - sn1) * 0.5| ≤ 1 := by
    have ha1 := abs_le.mp hs1
    have ha2 := abs_le.mp hs2
    rw [abs_le]
    constructor <;> nlinarith
  calc |((c1 - c2) * 8 + (g12 - g11) * (5 * mw) + (g22 - g21) * (6 * ew)) * mag +
        (sn2 - sn1) * 0.5| ≤
        |((c1 - c2) * 8 + (g12 - g11) * (5 * mw) + (g22 - g21) * (6 * ew)) * mag| +
        |(sn2 - sn1) * 0.5| := abs_add _ _
    _ ≤ (Real.pi / 720 * 8 + 1/60 * (5 * 1) + 1/60 * (6 * (9/10))) * (3/2) + 1 := by
        linarith
    _ ≤ 139/100 := by nlinarith [Real.pi_le_four, Real.pi_nonneg]

/-- One step of the minute grid — including the wrap from 23:59 to 00:00 of
the next day — moves the pre-clamp waveform value by at most 139/100. -/
theorem preHM_step (n h1 m1 h2 m2 : ℕ) (hh1 : h1 < 24) (hm1 : m1 < 60)
    (hh2 : h2 < 24) (hm2 : m2 < 60)
    (hstep : h2 * 60 + m2 = (h1 * 60 + m1 + 1) % 1440) :
    |preHM n h2 m2 - preHM n h1 m1| ≤ 139/100 := by
  rw [preHM_formula n h1 m1 hh1 hm1, preHM_formula n h2 m2 hh2 hm2]
  set x1 : ℝ := (h1 : ℝ) + (m1 : ℝ) / 60 - ((n / 10 % 10 : ℕ) : ℝ) + 4 with hx1
  set x2 : ℝ := (h2 : ℝ) + (m2 : ℝ) / 60 - ((n / 10 % 10 : ℕ) : ℝ) + 4 with hx2
  have hxcase : x2 = x1 + 1/60 ∨ x2 = x1 + 1/60 - 24 := by
    rcases Nat.lt_or_ge (h1 * 60 + m1 + 1) 1440 with hlt | hge
    · left
      have hn : h2 * 60 + m2 = h1 * 60 + m1 + 1 := by omega
      have hr : (h2 : ℝ) * 60 + (m2 : ℝ) = (h1 : ℝ) * 60 + (m1 : ℝ) + 1 := by
        exact_mod_cast hn
      rw [hx1, hx2]
      linarith
    · right
      have h19 : h1 = 23 ∧ m1 = 59 ∧ h2 = 0 ∧ m2 = 0 := by omega
      obtain ⟨rfl, rfl, rfl, rfl⟩ := h19
      rw [hx1, hx2]
      push_cast
      ring
  have hrmod2 : rmod x2 24 = rmod (x1 + 1/60) 24 := by
    rcases hxcase with he | he
    · rw [he]
    · rw [he, show x1 + 1/60 - 24 = x1 + 1/60 - 24 * ((1:ℤ):ℝ) by push_cast; ring,
        rmod_int_sub]
  have hrcase : rmod x2 24 = rmod x1 24 + 1/60 ∨
      (24 ≤ rmod x1 24 + 1/60 ∧ rmod x2 24 = rmod x1 24 + 1/60 - 24) := by
    rw [hrmod2]
    exact rmod_add_small x1 (1/60) (by norm_num) (by norm_num)
  have hdv := cos_step (rmod x1 24) (rmod x2 24)
    (by rcases hrcase with h | ⟨-, h⟩; exacts [Or.inl h, Or.inr h])
  have hg1 := gauss_step (rmod x1 24) (rmod x2 24) 7.5 (Or.inl rfl)
    (rmod_nonneg x1) (rmod_lt x1)
    (by rcases hrcase with h | ⟨hge, h⟩; exacts [Or.inl h, Or.inr ⟨hge, h⟩])
  have hg2 := gauss_step (rmod x1 24) (rmod x2 24) 19 (Or.inr rfl)
    (rmod_nonneg x1) (rmod_lt x1)
    (by rcases hrcase with h | ⟨hge, h⟩; exacts [Or.inl h, Or.inr ⟨hge, h⟩])
  have hmbn : n % 10 ≤ 9 := by omega
  have hpbn : n / 100 % 10 ≤ 9 := by omega
  have hmb9 : ((n % 10 : ℕ) : ℝ) ≤ 9 := by exact_mod_cast hmbn
  have hpb9 : ((n / 100 % 10 : ℕ) : ℝ) ≤ 9 := by exact_mod_cast hpbn
  have hpb0 : (0 : ℝ) ≤ ((n / 100 % 10 : ℕ) : ℝ) := Nat.cast_nonneg _
  have hmb0 : (0 : ℝ) ≤ ((n % 10 : ℕ) : ℝ) := Nat.cast_nonneg _
  apply combo_step
  · linarith
  · linarith
  · positivity
  · linarith
  · positivity
  · linarith
  · exact hdv
  · exact hg1
  · exact hg2
  · exact Real.abs_sin_le_one _
  · exact Real.abs_sin_le_one _

/-- C9: smoothness at the day boundary — for every catalog meter, the value
at 23:59 of a day and the value at 00:00 (of the next day: the generator
reads only hour and minute, so any 00:00 instant represents it) differ by
at most 3/2; and the same uniform bound 3/2 holds for every pair of
consecutive minutes elsewhere in the series.  The hour-wrap modulo 24
introduces no discontinuous jump beyond the ordinary minute-to-minute step
bound (the daily cosine is 2π-periodic through the wrap, and both Gaussian
spikes are negligible near the wrap point of the shifted hour). -/
theorem c9_day_boundary :
    ∀ mid : String, mid ∈ VALID_METER_IDS →
    ∀ (d1 d2 : PyDatetime) (v1 v2 : ℝ),
      get_usage_value_for_time d1 mid = some v1 →
      get_usage_value_for_time d2 mid = some v2 →
      ((dtHour d1 = 23 ∧ dtMinute d1 = 59 ∧ dtHour d2 = 0 ∧ dtMinute d2 = 0) ∨
        dtHour d2 * 60 + dtMinute d2 = dtHour d1 * 60 + dtMinute d1 + 1) →
      |v2 - v1| ≤ 3/2 := by
  intro mid hmid d1 d2 v1 v2 hv1 hv2 hstep
  obtain ⟨i, hi, -, hp⟩ := valid_id_spec mid hmid
  have he1 : get_usage_value_for_time d1 mid = some (usageFromNum d1 (100000 + i)) := by
    rw [get_usage_value_for_time, hp, Option.map_some']
  have he2 : get_usage_value_for_time d2 mid = some (usageFromNum d2 (100000 + i)) := by
    rw [get_usage_value_for_time, hp, Option.map_some']
  rw [he1] at hv1
  rw [he2] at hv2
  have hv1' := Option.some.inj hv1
  have hv2' := Option.some.inj hv2
  subst hv1'
  subst hv2'
  unfold usageFromNum
  have hd := pyRound2_diff (max 0 (usagePre d2 (100000 + i))) (max 0 (usagePre d1 (100000 + i)))
  have hm := max_zero_diff (usagePre d2 (100000 + i)) (usagePre d1 (100000 + i))
  have hpre : |usagePre d2 (100000 + i) - usagePre d1 (100000 + i)| ≤ 139/100 := by
    rw [usagePre_eq_preHM d1 _ (dtHour_lt d1) (dtMinute_lt d1),
        usagePre_eq_preHM d2 _ (dtHour_lt d2) (dtMinute_lt d2)]
    apply preHM_step _ _ _ _ _ (dtHour_lt d1) (dtMinute_lt d1) (dtHour_lt d2) (dtMinute_lt d2)
    rcases hstep with ⟨ha, hb, hc, hd'⟩ | h
    · rw [ha, hb, hc, hd']
    · rw [h]
      have hlt : dtHour d1 * 60 + dtMinute d1 + 1 < 1440 := by
        have h1 := dtHour_lt d1
        have h2 := dtMinute_lt d1
        have h3 := dtHour_lt d2
        have h4 := dtMinute_lt d2
        omega
      exact (Nat.mod_eq_of_lt hlt).symm
  linarith

theorem c9_witness :
    |usageFromNum (mkDt 2025 1 2 0 0 0 (some 0)) 100000 -
      usageFromNum (mkDt 2025 1 1 23 59 0 (some 0)) 100000| ≤ 3/2 := by
  have hp : intOfString (strLast6 "1020100000") = some 100000 := by decide
  have hva : get_usage_value_for_time (mkDt 2025 1 1 23 59 0 (some 0)) "1020100000" =
      some (usageFromNum (mkDt 2025 1 1 23 59 0 (some 0)) 100000) := by
    rw [get_usage_value_for_time, hp, Option.map_some']
  have hvb : get_usage_value_for_time (mkDt 2025 1 2 0 0 0 (some 0)) "1020100000" =
      some (usageFromNum (mkDt 2025 1 2 0 0 0 (some 0)) 100000) := by
    rw [get_usage_value_for_time, hp, Option.map_some']
  set_option maxRecDepth 100000 in
  exact c9_day_boundary "1020100000" (by decide) _ _ _ _ hva hvb
    (Or.inl ⟨by decide, by decide, by decide, by decide⟩)
